import Mathlib

/-!
Verification development for the hubspot-local-dev-lib repository.

A shallow embedding of the library's pure state and control logic:
  * the account data model and `CLIConfiguration` state manager
    (src/src/config/CLIConfiguration.ts),
  * the archive extraction pipeline (src/lib/archive.ts and
    src/src/lib/archive.ts, which are behaviourally identical),
  * the usage tracker (src/lib/trackUsage.ts),
  * the HTTP request-options builder (getRequestOptions in
    src/src/config/CLIConfiguration.ts's companion module),
  * the thin API client wrappers (src/api/fileTransport.ts,
    src/api/localDevAuth.ts).

JavaScript conventions are modelled explicitly:
  * `undefined` optional fields become `Option`;
  * truthiness of a string is `s != ""`, of a number `n != 0`, of an
    object/array `Option.isSome`;
  * filesystem and HTTP effects are modelled as explicit state passing
    or as action traces.
-/

namespace HubSpotLocalDevLib

/-- A `string | number` value, as used for account names and ids. -/
inductive StrOrNum where
  | num (n : Nat)
  | str (s : String)
  deriving DecidableEq, Repr

/-- OAuth auth blob of an account (`OAuthAccount['auth']`): fields
`clientId`, `clientSecret`, `scopes`, `tokenInfo`.  The token-info object is
modelled opaquely as a string. -/
structure AuthData where
  clientId : Option String := none
  clientSecret : Option String := none
  scopes : Option (List String) := none
  tokenInfo : Option String := none
  deriving DecidableEq, Repr

/-- An account record (`CLIAccount` / `FlatAccountFields` as stored in the
configuration), with the fields read and written by `CLIConfiguration`. -/
structure CLIAccount where
  accountId : Nat := 0
  name : Option String := none
  env : Option String := none
  authType : Option String := none
  auth : Option AuthData := none
  apiKey : Option String := none
  defaultMode : Option String := none
  personalAccessKey : Option String := none
  sandboxAccountType : Option String := none
  parentAccountId : Option Nat := none
  deriving DecidableEq, Repr

/-- The persisted configuration (`CLIConfig`). -/
structure CLIConfig where
  accounts : List CLIAccount := []
  defaultAccount : Option StrOrNum := none
  defaultMode : Option String := none
  httpTimeout : Option Nat := none
  httpUseLocalhost : Option Bool := none
  allowUsageTracking : Option Bool := none
  env : Option String := none
  deriving DecidableEq, Repr

/-- JavaScript truthiness of an optional string (`undefined` and `''` are
falsy). -/
def strTruthy : Option String → Bool
  | some s => s != ""
  | none => false

/-- JavaScript `a || b` on optional strings. -/
def jsOrStr (a b : Option String) : Option String :=
  if strTruthy a then a else b

/-- JavaScript truthiness of a `string | number` value. -/
def sonTruthy : StrOrNum → Bool
  | .num n => n != 0
  | .str s => s != ""

/-- JavaScript truthiness of an optional `string | number` value. -/
def optSonTruthy : Option StrOrNum → Bool
  | some v => sonTruthy v
  | none => false

/-- The test `/^\d+$/.test s`: `s` is non-empty and all-digits. -/
def isDigitString (s : String) : Bool :=
  (s != "") && s.data.all Char.isDigit

/-- The value `parseInt s 10` on an all-digit string. -/
def parseDigits (s : String) : Nat :=
  s.data.foldl (fun n c => n * 10 + (c.toNat - 48)) 0

/-- The value `s.toLowerCase()`. -/
def toLowerStr (s : String) : String :=
  String.mk (s.data.map Char.toLower)

namespace CLIConfiguration

/-- Lookup on line 196 of CLIConfiguration.ts:
`this.config.accounts.find(a => accountId === a.accountId)`. -/
def findAccountById (accounts : List CLIAccount) (accountId : Nat) :
    Option CLIAccount :=
  accounts.find? (fun a => accountId == a.accountId)

/-- Lookup on line 194 of CLIConfiguration.ts:
`this.config.accounts.find(a => a.name === name)`. -/
def findAccountByName (accounts : List CLIAccount) (name : String) :
    Option CLIAccount :=
  accounts.find? (fun a => a.name == some name)

/-- Method `getDefaultAccount` (CLIConfiguration.ts lines 207-211):
returns `config.defaultAccount` when truthy, else `null`.  The caller
already holds a non-null config, so only the account field matters. -/
def getDefaultAccount (cfg : CLIConfig) : Option StrOrNum :=
  match cfg.defaultAccount with
  | some v => if sonTruthy v then some v else none
  | none => none

/-- Dispatch tail of `getAccount` (CLIConfiguration.ts lines 185-199):
classify `nameOrIdToCheck` into a name or an account id and run the
corresponding lookup.  A number is looked up by id; an all-digit string
is parsed with `parseInt` and looked up by id; any other string is looked
up by name.  The final `if (name) ... else if (accountId) ...` guards
make a zero id return `null` with no lookup. -/
def lookupByCheck (accounts : List CLIAccount)
    (nameOrIdToCheck : Option StrOrNum) : Option CLIAccount :=
  match nameOrIdToCheck with
  | none => none
  | some (.num n) =>
    if n ≠ 0 then findAccountById accounts n else none
  | some (.str s) =>
    if isDigitString s then
      if parseDigits s ≠ 0 then findAccountById accounts (parseDigits s)
      else none
    else
      if s ≠ "" then findAccountByName accounts s else none

/-- Method `getAccount` (CLIConfiguration.ts lines 171-200): with a null
config return `null`; otherwise fall back to the default account when the
argument is falsy, and dispatch the resulting name-or-id. -/
def getAccount (config : Option CLIConfig) (nameOrId : Option StrOrNum) :
    Option CLIAccount :=
  match config with
  | none => none
  | some cfg =>
    lookupByCheck cfg.accounts
      (if optSonTruthy nameOrId then nameOrId else getDefaultAccount cfg)

/-- Method `getConfigAccountIndex` (CLIConfiguration.ts lines 227-233)
restricted to a present config:
`accounts.findIndex(account => account.accountId === accountId)`. -/
def getConfigAccountIndex (accounts : List CLIAccount) (accountId : Nat) :
    Nat :=
  accounts.findIdx (fun a => a.accountId == accountId)

end CLIConfiguration

/-- JavaScript `/\s/` character class (ECMA-262 WhiteSpace and
LineTerminator code points). -/
def isJsWhitespace (c : Char) : Bool :=
  let v := c.toNat
  (v == 9) || (v == 10) || (v == 11) || (v == 12) || (v == 13) ||
    (v == 32) || (v == 0xa0) || (v == 0x1680) ||
    (decide (0x2000 ≤ v) && decide (v ≤ 0x200a)) ||
    (v == 0x2028) || (v == 0x2029) || (v == 0x202f) || (v == 0x205f) ||
    (v == 0x3000) || (v == 0xfeff)

/-- The test `/\s+/.test name`: some character of `name` is whitespace. -/
def containsWhitespace (s : String) : Bool :=
  s.data.any isJsWhitespace

/-- The own property names of `Object.prototype`: a read of
`accountNamesMap[name]` on the plain `{}` literal consults the prototype
chain, and every one of these inherited members is truthy (a function, or
for `__proto__` the prototype object itself).  Numeric keys, as used by
`accountIdsMap`, have no counterpart on `Object.prototype`. -/
def jsObjectProtoKeys : List String :=
  ["constructor", "hasOwnProperty", "isPrototypeOf",
   "propertyIsEnumerable", "toLocaleString", "toString", "valueOf",
   "__proto__", "__defineGetter__", "__defineSetter__",
   "__lookupGetter__", "__lookupSetter__"]

namespace CLIConfiguration

/-- The body of the `every` callback in `validate` (CLIConfiguration.ts
lines 135-168), with the two accumulator maps (`accountIdsMap`,
`accountNamesMap`) made explicit.  An entry may be `none` (a null element
of the parsed accounts array), which fails the `!accountConfig` check.
The `accountNamesMap[name]` read is truthy when `name` was stored earlier
or when it is an inherited `Object.prototype` member (`jsObjectProtoKeys`);
the `accountIdsMap` read sees only stored numeric keys. -/
def validateGo : List Nat → List String → List (Option CLIAccount) → Bool
  | _, _, [] => true
  | _, _, none :: _ => false
  | ids, names, some a :: rest =>
    if a.accountId = 0 then false
    else if a.accountId ∈ ids then false
    else
      match a.name with
      | some n =>
        if n ≠ "" then
          if n ∈ names ∨ n ∈ jsObjectProtoKeys then false
          else if containsWhitespace n then false
          else validateGo (a.accountId :: ids) (n :: names) rest
        else validateGo (a.accountId :: ids) names rest
      | none => validateGo (a.accountId :: ids) names rest

/-- Runtime view of the configuration as `validate` sees it: the config
may be null, the accounts field may fail `Array.isArray` (`none`), and
individual entries may be null. -/
structure RawConfigView where
  accounts : Option (List (Option CLIAccount))
  deriving DecidableEq, Repr

/-- Method `validate` (CLIConfiguration.ts lines 115-169).  Logging
callbacks do not affect the returned boolean and are omitted. -/
def validate : Option RawConfigView → Bool
  | none => false
  | some cfg =>
    match cfg.accounts with
    | none => false
    | some l => validateGo [] [] l

end CLIConfiguration

/-- The update-fields record destructured at the top of `updateAccount`
(CLIConfiguration.ts lines 271-285), a `FlatAccountFields` value whose
entries may each be `undefined`. -/
structure UpdatedAccountFields where
  accountId : Nat := 0
  apiKey : Option String := none
  authType : Option String := none
  clientId : Option String := none
  clientSecret : Option String := none
  defaultMode : Option String := none
  env : Option String := none
  name : Option String := none
  parentAccountId : Option Nat := none
  personalAccessKey : Option String := none
  sandboxAccountType : Option String := none
  scopes : Option (List String) := none
  tokenInfo : Option String := none
  deriving DecidableEq, Repr

namespace CLIConfiguration

/-- Helper `safelyApplyUpdates` (CLIConfiguration.ts lines 313-325):
everything except an `undefined` value overrides the existing value. -/
def safelyApplyUpdates {α : Type} (newValue oldValue : Option α) :
    Option α :=
  match newValue with
  | some v => some v
  | none => oldValue

/-- The condition `clientId || clientSecret || scopes || tokenInfo`
guarding the construction of the `auth` blob (line 298). -/
def authFieldsTruthy (u : UpdatedAccountFields) : Bool :=
  strTruthy u.clientId || strTruthy u.clientSecret ||
    u.scopes.isSome || u.tokenInfo.isSome

/-- The `auth` local of `updateAccount` (lines 297-306).  The object
literal spreads the current auth and then lists all four keys explicitly,
so the explicit (possibly undefined) values win over the spread. -/
def updatedAuth (cur : Option CLIAccount) (u : UpdatedAccountFields) :
    Option AuthData :=
  if authFieldsTruthy u then
    let spread : AuthData :=
      match cur with
      | some a => match a.auth with | some x => x | none => {}
      | none => {}
    some { spread with
           clientId := u.clientId, clientSecret := u.clientSecret,
           scopes := u.scopes, tokenInfo := u.tokenInfo }
  else none

/-- The merged account built by `updateAccount` out of the current account
and the update fields (CLIConfiguration.ts lines 295-353), with the
sequence of `safelyApplyUpdates` mutations written field by field.  No
applied update reads a field written by an earlier one, except the
`apiKey` guard (line 340) which reads the `authType` written on line 338;
that value is inlined there.  The three imported helpers that are not
part of this repository snapshot are parameters: `gve` is
`getValidEnv (. , false)` (config/environment.ts), `dm` is the
`DEFAULT_MODES` table lookup and `akv` is `API_KEY_AUTH_METHOD.value`
(constants). -/
def mergeAccount (gve : Option String → String) (dm : String → Option String)
    (akv : String) (cur : Option CLIAccount) (u : UpdatedAccountFields) :
    CLIAccount :=
  let base : CLIAccount := match cur with | some a => a | none => {}
  let updatedEnv : String :=
    gve (jsOrStr u.env (match cur with | some a => a.env | none => none))
  let authType := safelyApplyUpdates u.authType base.authType
  { accountId := u.accountId
    name := safelyApplyUpdates u.name base.name
    env := some updatedEnv
    authType := authType
    auth := safelyApplyUpdates (updatedAuth cur u) base.auth
    apiKey :=
      if authType == some akv then safelyApplyUpdates u.apiKey base.apiKey
      else base.apiKey
    defaultMode :=
      match u.defaultMode with
      | some s => safelyApplyUpdates (dm (toLowerStr s)) base.defaultMode
      | none => base.defaultMode
    personalAccessKey :=
      safelyApplyUpdates u.personalAccessKey base.personalAccessKey
    sandboxAccountType :=
      safelyApplyUpdates u.sandboxAccountType base.sandboxAccountType
    parentAccountId :=
      safelyApplyUpdates u.parentAccountId base.parentAccountId }

/-- Method `updateAccount` (CLIConfiguration.ts lines 267-376) acting on
the in-memory config.  A falsy `accountId` throws (`Except.error`); a null
config returns `null` unchanged; otherwise the merged account is computed
and, when the account id is already present, the entry at its index is
replaced and the merged record is additionally pushed onto the array
(lines 355-369).  When the id is absent, the accounts array is left
unchanged.  The trailing `this.write()` touches only the file, not the
in-memory accounts, and is modelled separately. -/
def updateAccount (gve : Option String → String) (dm : String → Option String)
    (akv : String) (config : Option CLIConfig) (u : UpdatedAccountFields) :
    Except Unit (Option CLIConfig × Option CLIAccount) :=
  if u.accountId == 0 then .error ()
  else
    match config with
    | none => .ok (none, none)
    | some cfg =>
      let currentAccountConfig := getAccount (some cfg) (some (.num u.accountId))
      let completedAccountConfig := mergeAccount gve dm akv currentAccountConfig u
      match currentAccountConfig with
      | some _ =>
        let index := getConfigAccountIndex cfg.accounts u.accountId
        let accounts' :=
          (cfg.accounts.set index completedAccountConfig) ++
            [completedAccountConfig]
        .ok (some { cfg with accounts := accounts' }, some completedAccountConfig)
      | none => .ok (some cfg, some completedAccountConfig)

end CLIConfiguration

/-- Content of the configuration file on disk: absent, blank, or a parsed
configuration. -/
inductive FileContent where
  | blank
  | conf (c : CLIConfig)
  deriving DecidableEq, Repr

/-- External state seen by `CLIConfiguration`: the configuration file and
the environment-variable configuration. -/
structure World where
  file : Option FileContent := none
  envConfig : Option CLIConfig := none
  deriving DecidableEq, Repr

/-- Modelled from the spec: `configFileExists` of the missing
config/configFile.ts module — whether the configuration file exists. -/
def configFileExists (w : World) : Bool :=
  w.file.isSome

/-- Modelled from the spec: `configFileIsBlank` of the missing
config/configFile.ts module — whether the configuration file is blank. -/
def configFileIsBlank (w : World) : Bool :=
  w.file == some .blank

/-- Modelled from the spec: `loadConfigFromFile` of the missing
config/configFile.ts module — parse the file-sourced configuration,
yielding `null` when there is none. -/
def loadConfigFromFile (w : World) : Option CLIConfig :=
  match w.file with
  | some (.conf c) => some c
  | _ => none

/-- Modelled from the spec: `writeConfigToFile` of the missing
config/configFile.ts module — persist the configuration to the file. -/
def writeConfigToFile (c : CLIConfig) (w : World) : World :=
  { w with file := some (.conf c) }

/-- Modelled from the spec: `deleteConfigFile` of the missing
config/configFile.ts module — remove the configuration file. -/
def deleteConfigFile (w : World) : World :=
  { w with file := none }

/-- Modelled from the spec: `loadConfigFromEnvironment` of the missing
config/environment.ts module — the environment-variable-sourced
configuration, when the relevant variables are set. -/
def loadConfigFromEnvironment (w : World) : Option CLIConfig :=
  w.envConfig

namespace CLIConfiguration

/-- In-memory state of the `CLIConfiguration` singleton: its options and
the `useEnvConfig` / `config` fields (CLIConfiguration.ts lines 39-48).
Only the `useEnv` option is relevant to the modelled methods. -/
structure State where
  useEnvOption : Bool := false
  useEnvConfig : Bool := false
  config : Option CLIConfig := none
  deriving DecidableEq, Repr

/-- Method `load` (CLIConfiguration.ts lines 55-78).  With `useEnv` set
and an environment config present, that config is installed; with
`useEnv` set and none present, nothing changes.  Otherwise the
file branch runs: when the file yields nothing, `this.config` is first
assigned the `{ accounts: [] }` default (line 71), and then — in either
case — `this.config` is unconditionally assigned `configFromFile`
(line 74), so the default never survives. -/
def load (s : State) (w : World) : State :=
  if s.useEnvOption then
    match loadConfigFromEnvironment w with
    | some configFromEnv =>
      { s with useEnvConfig := true, config := some configFromEnv }
    | none => s
  else
    let configFromFile := loadConfigFromFile w
    let s1 :=
      if configFromFile.isNone then
        { s with config := some { accounts := [] } }
      else s
    let s2 := { s1 with useEnvConfig := false }
    { s2 with config := configFromFile }

/-- The value returned by `load` (line 77): the updated `this.config`. -/
def loadReturn (s : State) (w : World) : Option CLIConfig :=
  (load s w).config

/-- The emptiness test on lines 85-91: the parsed config exists, has
exactly one own key, and a truthy `accounts` value.  In the record model
a config whose only JSON key is the (always truthy) accounts array is one
with every optional field absent. -/
def onlyAccountsKey (c : CLIConfig) : Bool :=
  c.defaultAccount.isNone && c.defaultMode.isNone && c.httpTimeout.isNone &&
    c.httpUseLocalhost.isNone && c.allowUsageTracking.isNone && c.env.isNone

/-- Method `configIsEmpty` (CLIConfiguration.ts lines 80-94).  Note that
the non-trivial branch re-runs `load`, mutating the state; the mutated
state is returned alongside the boolean. -/
def configIsEmpty (s : State) (w : World) : Bool × State :=
  if !configFileExists w || configFileIsBlank w then (true, s)
  else
    let s' := load s w
    match s'.config with
    | some c => (onlyAccountsKey c, s')
    | none => (false, s')

/-- Method `delete` (CLIConfiguration.ts lines 96-101).  The
`!this.useEnvConfig && this.configIsEmpty()` condition short-circuits, so
with an env-sourced config nothing at all runs. -/
def delete (s : State) (w : World) : State × World :=
  if !s.useEnvConfig then
    let r := configIsEmpty s w
    if r.1 then ({ r.2 with config := none }, deleteConfigFile w)
    else (r.2, w)
  else (s, w)

/-- Method `write` (CLIConfiguration.ts lines 103-113): with a
file-sourced config, an `updatedConfig` argument replaces the in-memory
config and a present config is persisted; with an env-sourced config
nothing happens.  Returns (state, world, returned value). -/
def write (s : State) (w : World) (updatedConfig : Option CLIConfig) :
    State × World × Option CLIConfig :=
  if !s.useEnvConfig then
    let s1 :=
      match updatedConfig with
      | some u => { s with config := some u }
      | none => s
    let w1 :=
      match s1.config with
      | some c => writeConfigToFile c w
      | none => w
    (s1, w1, s1.config)
  else (s, w, s.config)

end CLIConfiguration

/-! ### Archive extraction (src/lib/archive.ts; src/src/lib/archive.ts is
the same pipeline with different logging). -/

/-- The externally visible filesystem steps of the archive pipeline. -/
inductive FsAction where
  | mkdtemp
  | writeZip
  | extractZip
  | readdirSrc
  | ensureDest
  | copyDest
  | removeTmpDir
  deriving DecidableEq, Repr

/-- Which of the fallible filesystem calls fail, and whether the
extracted archive root is empty: the environment a run of the pipeline
executes against. -/
structure FsOutcome where
  mkdtempFails : Bool := false
  writeFails : Bool := false
  extractFails : Bool := false
  readdirEmpty : Bool := false
  copyFails : Bool := false
  deriving DecidableEq, Repr

/-- Result of `extractZip` (archive.ts lines 24-73): the temp dir and the
extraction dir inside it. -/
structure ZipData where
  extractDir : String := ""
  tmpDir : String := ""
  deriving DecidableEq, Repr

/-- Helper `extractZip` (archive.ts lines 24-73) as a trace-producing
computation.  `mkdtemp` failing throws with nothing created; the
write failing throws after the temp dir exists; extraction failing
rethrows.  Every catch block ends in a throwing helper
(`throwFileSystemError` / `throwErrorWithMessage` return `never`), so the
`return result` after the write catch is unreachable and each failure
rejects the promise. -/
def extractZip (name : String) (o : FsOutcome) :
    List FsAction × Except Unit ZipData :=
  if o.mkdtempFails then ([.mkdtemp], .error ())
  else
    let tmpDir := "/tmp/hubspot-temp-" ++ name ++ "-XXXXXX"
    if o.writeFails then ([.mkdtemp, .writeZip], .error ())
    else if o.extractFails then
      ([.mkdtemp, .writeZip, .extractZip], .error ())
    else
      ([.mkdtemp, .writeZip, .extractZip],
        .ok { extractDir := tmpDir ++ "/extracted", tmpDir := tmpDir })

/-- Helper `copySourceToDest` (archive.ts lines 80-121).  With
`includesRootDir` the source is listed first; an empty listing ensures the
destination exists and succeeds with nothing copied.  A failing copy is
caught and re-thrown by `throwFileSystemError`, so the `return false`
after the catch block is unreachable. -/
def copySourceToDest (includesRootDir : Bool) (o : FsOutcome) :
    List FsAction × Except Unit Bool :=
  if includesRootDir && o.readdirEmpty then
    ([.readdirSrc, .ensureDest], .ok true)
  else
    let pre := if includesRootDir then [FsAction.readdirSrc] else []
    if o.copyFails then (pre ++ [.copyDest], .error ())
    else (pre ++ [.copyDest], .ok true)

/-- Exported `extractZipArchive` (archive.ts lines 132-159).  A falsy zip
buffer skips everything.  `extractDir !== null` always holds (it is a
string), so the copy runs whenever `extractZip` resolved.
`cleanupTempDir` is only reached when both awaited calls resolved: there
is no try/finally, so a rejection of either skips the cleanup. -/
def extractZipArchive (zipTruthy : Bool) (name : String)
    (includesRootDir : Bool) (o : FsOutcome) :
    List FsAction × Except Unit Bool :=
  if zipTruthy then
    let r := extractZip name o
    match r.2 with
    | .error e => (r.1, .error e)
    | .ok _ =>
      let c := copySourceToDest includesRootDir o
      match c.2 with
      | .error e => (r.1 ++ c.1, .error e)
      | .ok success => (r.1 ++ c.1 ++ [.removeTmpDir], .ok success)
  else ([], .ok false)

/-! ### Usage tracking (src/lib/trackUsage.ts). -/

/-- How the promise returned by an async routine settles: on its own as
soon as the function body finishes, or together with an issued request
(`return http.post(...)` ties them). -/
inductive PromiseShape where
  | resolvesImmediately
  | tiedToRequest
  deriving DecidableEq, Repr

/-- Observable behaviour of one `trackUsage` call: the POST it issues and
the shape of the promise it returns. -/
structure TrackUsageCall where
  url : String
  method : String := "post"
  authenticated : Bool
  postCount : Nat := 1
  promise : PromiseShape
  deriving DecidableEq, Repr

/-- Endpoint selection switch (trackUsage.ts lines 29-38); an unknown
event name leaves `analyticsEndpoint` undefined, which stringifies as
"undefined" in the template literal on line 40. -/
def analyticsEndpoint (eventName : String) : Option String :=
  if eventName == "cli-interaction" then some "cms-cli-usage"
  else if eventName == "vscode-extension-interaction" then
    some "vscode-extension-usage"
  else none

/-- Exported `trackUsage` (trackUsage.ts lines 10-62).  `fileMapperPath`
stands for the imported `FILE_MAPPER_API_PATH` constant and
`getAccountConfig` for the config lookup, both outside this snapshot.
The authenticated branch (account found and `authType ===
'personalaccesskey'`) *returns* `http.post(...)`, so the caller's promise
settles with the POST's outcome; the unauthenticated branch fires
`axios({...})` without awaiting or returning it and the promise resolves
immediately. -/
def trackUsage (fileMapperPath : String) (eventName : String)
    (accountId : Option Nat) (getAccountConfig : Nat → Option CLIAccount) :
    TrackUsageCall :=
  let path := fileMapperPath ++ "/" ++
    (match analyticsEndpoint eventName with
     | some e => e
     | none => "undefined")
  let accountConfig :=
    match accountId with
    | some n => if n != 0 then getAccountConfig n else none
    | none => none
  match accountConfig with
  | some cfg =>
    if cfg.authType == some "personalaccesskey" then
      { url := path ++ "/authenticated", authenticated := true,
        promise := .tiedToRequest }
    else
      { url := path, authenticated := false,
        promise := .resolvesImmediately }
  | none =>
    { url := path, authenticated := false,
      promise := .resolvesImmediately }

/-! ### HTTP request options (getRequestOptions, companion of
CLIConfiguration.ts). -/

/-- The default User-Agent headers record. -/
def DEFAULT_USER_AGENT_HEADERS : String :=
  "HubSpot Local Dev Lib/{version}"

/-- The record `getRequestOptions` returns. -/
structure RequestOptions where
  baseUrl : String
  userAgentHeader : String
  json : Bool
  simple : Bool
  timeout : Nat
  deriving DecidableEq, Repr

/-- Per-field overrides coming from the `requestOptions` spread argument;
its default value in the source is the empty object. -/
structure RequestOverrides where
  baseUrl : Option String := none
  userAgentHeader : Option String := none
  json : Option Bool := none
  simple : Option Bool := none
  timeout : Option Nat := none
  deriving DecidableEq, Repr

/-- Exported `getRequestOptions`.  `origin` stands for the imported
`getHubSpotApiOrigin` helper (utils/urls.ts, outside this snapshot); its
second argument is `localHostOverride ? false : httpUseLocalhost`, JS
truthiness on the override.  `cfg` is the configuration returned by
`CLIConfiguration.getAndLoadConfigIfNeeded()`.  The timeout is
`httpTimeout || 15000` (zero is falsy).  The trailing spread applies the
per-field overrides last. -/
def getRequestOptions (origin : Option String → Option Bool → String)
    (cfg : CLIConfig) (env : Option String) (localHostOverride : Option Bool)
    (requestOptions : RequestOverrides) : RequestOptions :=
  let baseUrl := origin env
    (if localHostOverride == some true then some false
     else cfg.httpUseLocalhost)
  let timeout :=
    match cfg.httpTimeout with
    | some t => if t != 0 then t else 15000
    | none => 15000
  { baseUrl := requestOptions.baseUrl.getD baseUrl
    userAgentHeader :=
      requestOptions.userAgentHeader.getD DEFAULT_USER_AGENT_HEADERS
    json := requestOptions.json.getD true
    simple := requestOptions.simple.getD true
    timeout := requestOptions.timeout.getD timeout }

/-! ### API client wrappers (src/api/fileTransport.ts,
src/api/localDevAuth.ts). -/

/-- An HTTP request issued through the `http` helper or raw axios: its
method, url and optional portalId query parameter. -/
structure ApiRequest where
  method : String
  url : String
  queryPortalId : Option Nat := none
  localHostOverride : Bool := false
  deriving DecidableEq, Repr

/-- Constant `HUBFILES_API_PATH` (fileTransport.ts line 6). -/
def HUBFILES_API_PATH : String :=
  "/file-transport/v1/hubfiles"

/-- Exported `createSchemaFromHubFile` (fileTransport.ts lines 8-20):
`http.post` to `HUBFILES_API_PATH + '/object-schemas'` with the file
stream as data.  The accountId and filepath shape only the payload. -/
def createSchemaFromHubFile (_accountId : Nat) (_filepath : String) :
    ApiRequest :=
  { method := "post", url := HUBFILES_API_PATH ++ "/object-schemas" }

/-- Exported `updateSchemaFromHubFile` (fileTransport.ts lines 22-34):
`http.put` to the same endpoint. -/
def updateSchemaFromHubFile (_accountId : Nat) (_filepath : String) :
    ApiRequest :=
  { method := "put", url := HUBFILES_API_PATH ++ "/object-schemas" }

/-- Constant `LOCALDEVAUTH_API_AUTH_PATH` (localDevAuth.ts line 8). -/
def LOCALDEVAUTH_API_AUTH_PATH : String :=
  "localdevauth/v1/auth"

/-- Exported `fetchAccessToken` (localDevAuth.ts lines 18-41): a POST via
raw axios to `LOCALDEVAUTH_API_AUTH_PATH + '/refresh'` with
`localHostOverride: true`; the query is `{ portalId }` when `portalId` is
truthy and `{}` otherwise. -/
def fetchAccessToken (_personalAccessKey : String) (_env : String)
    (portalId : Option Nat) : ApiRequest :=
  let query :=
    match portalId with
    | some p => if p != 0 then some p else none
    | none => none
  { method := "post", url := LOCALDEVAUTH_API_AUTH_PATH ++ "/refresh",
    queryPortalId := query, localHostOverride := true }

/-! ### Specification-side predicates used to state the claims. -/

/-- A single accounts-array entry is acceptable on its own, as the
original claim states it: it is non-null, its account id is truthy, and a
truthy name contains no whitespace character. -/
def AccountEntryOk (e : Option CLIAccount) : Prop :=
  ∃ a, e = some a ∧ a.accountId ≠ 0 ∧
    ∀ n, a.name = some n → n ≠ "" → containsWhitespace n = false

/-- A single accounts-array entry is acceptable to the implementation: as
`AccountEntryOk`, plus a truthy name must not collide with an inherited
`Object.prototype` member, since the `accountNamesMap[name]` read on the
plain object literal is truthy for those names even on first
occurrence. -/
def AccountEntryOkJs (e : Option CLIAccount) : Prop :=
  ∃ a, e = some a ∧ a.accountId ≠ 0 ∧
    ∀ n, a.name = some n → n ≠ "" →
      containsWhitespace n = false ∧ n ∉ jsObjectProtoKeys

/-- Two accounts-array entries (in list order) are compatible: their
account ids differ and their truthy names differ. -/
def EntriesCompatible (x y : Option CLIAccount) : Prop :=
  ∀ a b, x = some a → y = some b →
    a.accountId ≠ b.accountId ∧
    ∀ n m, a.name = some n → b.name = some m → n ≠ "" → m ≠ "" → n ≠ m

/-- The accounts array is valid as the original claim states it: every
entry is acceptable and every pair of entries is compatible. -/
def ValidAccountsSpec (l : List (Option CLIAccount)) : Prop :=
  (∀ e ∈ l, AccountEntryOk e) ∧ l.Pairwise EntriesCompatible

/-- The accounts array is accepted by the implementation: every entry is
acceptable including the `Object.prototype` name restriction, and every
pair of entries is compatible. -/
def ValidAccountsSpecJs (l : List (Option CLIAccount)) : Prop :=
  (∀ e ∈ l, AccountEntryOkJs e) ∧ l.Pairwise EntriesCompatible

/-- All-entries freshness with respect to already-seen ids and names:
used to state the accumulator invariant of `validateGo`. -/
def FreshFor (ids : List Nat) (names : List String)
    (l : List (Option CLIAccount)) : Prop :=
  ∀ e ∈ l, ∀ a, e = some a →
    a.accountId ∉ ids ∧ ∀ n, a.name = some n → n ≠ "" → n ∉ names

/-! ### Concrete stand-ins for imported helpers.

The helpers below instantiate the parameters of the `updateAccount`
theorems on concrete inputs.  They play the role of the imported
`getValidEnv` (config/environment.ts), `DEFAULT_MODES` table and
`API_KEY_AUTH_METHOD.value` (constants), none of which is part of this
source snapshot; every concrete statement instantiated with them below
holds for any other choice as well. -/

/-- Stand-in for `getValidEnv (·, false)`: any non-"qa" input maps to the
production environment. -/
def getValidEnvStub (env : Option String) : String :=
  match env with
  | some s => if s = "qa" then "qa" else "prod"
  | none => "prod"

/-- Stand-in for the `DEFAULT_MODES` table lookup. -/
def defaultModesStub (s : String) : Option String :=
  if s = "draft" ∨ s = "publish" then some s else none

/-- Stand-in for `API_KEY_AUTH_METHOD.value`. -/
def apiKeyAuthValue : String :=
  "apikey"

/-! ## Theorems -/

/-- C8: `createSchemaFromHubFile` issues a POST and
`updateSchemaFromHubFile` a PUT, both to the fixed endpoint
'/file-transport/v1/hubfiles/object-schemas'; `fetchAccessToken` issues a
POST to the fixed endpoint 'localdevauth/v1/auth/refresh', attaching
`portalId` as a query parameter only when one is provided. -/
theorem c8_fixed_endpoints (a : Nat) (f : String) (k e : String)
    (p : Option Nat) :
    (createSchemaFromHubFile a f).method = "post" ∧
    (createSchemaFromHubFile a f).url =
      "/file-transport/v1/hubfiles/object-schemas" ∧
    (updateSchemaFromHubFile a f).method = "put" ∧
    (updateSchemaFromHubFile a f).url =
      "/file-transport/v1/hubfiles/object-schemas" ∧
    (fetchAccessToken k e p).method = "post" ∧
    (fetchAccessToken k e p).url = "localdevauth/v1/auth/refresh" ∧
    (fetchAccessToken k e none).queryPortalId = none ∧
    (∀ q, (fetchAccessToken k e p).queryPortalId = some q → p = some q) := by
  refine ⟨rfl, rfl, rfl, rfl, rfl, rfl, rfl, ?_⟩
  intro q hq
  cases p with
  | none => simp [fetchAccessToken] at hq
  | some x =>
    by_cases hx : x = 0
    · simp [fetchAccessToken, hx] at hq
    · simp [fetchAccessToken, hx] at hq
      rw [hq]

/-- Witness for C8 at concrete inputs. -/
theorem c8_fixed_endpoints_witness :
    (createSchemaFromHubFile 123 "schema.json").method = "post" ∧
    (updateSchemaFromHubFile 123 "schema.json").method = "put" ∧
    (fetchAccessToken "key" "prod" none).queryPortalId = none :=
  ⟨(c8_fixed_endpoints 123 "schema.json" "key" "prod" (some 42)).1,
   (c8_fixed_endpoints 123 "schema.json" "key" "prod" (some 42)).2.2.1,
   (c8_fixed_endpoints 123 "schema.json" "key" "prod" (some 42)).2.2.2.2.2.2.1⟩

/-- C7: `getRequestOptions` (with the default empty `requestOptions`
argument) yields a timeout equal to the configuration's `httpTimeout`
when set and non-zero and 15000 otherwise, carries the default User-Agent
header, and derives `baseUrl` from the `env` argument and the
configuration's `httpUseLocalhost`, with `localHostOverride` forcing
localhost off. -/
theorem c7_get_request_options_spec
    (origin : Option String → Option Bool → String) (cfg : CLIConfig)
    (env : Option String) (lho : Option Bool) :
    (getRequestOptions origin cfg env lho {}).userAgentHeader =
      DEFAULT_USER_AGENT_HEADERS ∧
    (∀ t, cfg.httpTimeout = some t → t ≠ 0 →
      (getRequestOptions origin cfg env lho {}).timeout = t) ∧
    ((cfg.httpTimeout = none ∨ cfg.httpTimeout = some 0) →
      (getRequestOptions origin cfg env lho {}).timeout = 15000) ∧
    (getRequestOptions origin cfg env lho {}).baseUrl =
      origin env
        (if lho == some true then some false else cfg.httpUseLocalhost) ∧
    (lho = some true →
      (getRequestOptions origin cfg env lho {}).baseUrl =
        origin env (some false)) := by
  refine ⟨rfl, ?_, ?_, rfl, ?_⟩
  · intro t ht hne
    simp [getRequestOptions, ht, hne]
  · rintro (h | h) <;> simp [getRequestOptions, h]
  · intro h
    simp [getRequestOptions, h]

/-- Witness for C7 at concrete inputs. -/
theorem c7_get_request_options_witness :
    (getRequestOptions (fun _ _ => "https://api.hubapi.com")
        { httpTimeout := some 30000, httpUseLocalhost := some true }
        (some "qa") (some true) {}).timeout = 30000 ∧
    (getRequestOptions (fun _ _ => "https://api.hubapi.com")
        { httpTimeout := some 30000, httpUseLocalhost := some true }
        (some "qa") (some true) {}).baseUrl = "https://api.hubapi.com" :=
  ⟨(c7_get_request_options_spec (fun _ _ => "https://api.hubapi.com")
      { httpTimeout := some 30000, httpUseLocalhost := some true }
      (some "qa") (some true)).2.1 30000 rfl (by decide),
   (c7_get_request_options_spec (fun _ _ => "https://api.hubapi.com")
      { httpTimeout := some 30000, httpUseLocalhost := some true }
      (some "qa") (some true)).2.2.2.2 rfl⟩

/-- C9: with `options.useEnv` falsy, `load` ends with the in-memory
config equal to exactly `loadConfigFromFile()`; when no file
configuration exists the config ends up null and `load` returns null, the
intermediate `{ accounts: [] }` default never surviving. -/
theorem c9_load_file_branch (s : CLIConfiguration.State) (w : World)
    (h : s.useEnvOption = false) :
    (CLIConfiguration.load s w).config = loadConfigFromFile w ∧
    CLIConfiguration.loadReturn s w = loadConfigFromFile w ∧
    (loadConfigFromFile w = none →
      (CLIConfiguration.load s w).config = none ∧
      CLIConfiguration.loadReturn s w = none) := by
  refine ⟨?_, ?_, ?_⟩ <;>
    simp [CLIConfiguration.load, CLIConfiguration.loadReturn, h]

/-- Witness for C9: an absent configuration file loads as null. -/
theorem c9_load_file_branch_witness :
    CLIConfiguration.loadReturn {} {} = none :=
  (c9_load_file_branch {} {} rfl).2.2 rfl |>.2

/-- C4: with an environment-sourced configuration (`useEnvConfig` true),
`write` leaves the state, the file and the in-memory config untouched
(even when an `updatedConfig` argument is given and the file exists) and
returns the unchanged config; `delete` likewise changes nothing. -/
theorem c4_env_sourced_config_untouched (s : CLIConfiguration.State)
    (w : World) (u : Option CLIConfig) (h : s.useEnvConfig = true) :
    CLIConfiguration.write s w u = (s, w, s.config) ∧
    CLIConfiguration.delete s w = (s, w) := by
  constructor <;> simp [CLIConfiguration.write, CLIConfiguration.delete, h]

/-- Witness for C4: a concrete env-sourced state with a present file and
a supplied `updatedConfig`. -/
theorem c4_env_sourced_config_untouched_witness :
    CLIConfiguration.write
        { useEnvConfig := true,
          config := some { accounts := [{ accountId := 7 }] } }
        { file := some (.conf { accounts := [] }) }
        (some { accounts := [{ accountId := 9 }] }) =
      ({ useEnvConfig := true,
         config := some { accounts := [{ accountId := 7 }] } },
       { file := some (.conf { accounts := [] }) },
       some { accounts := [{ accountId := 7 }] }) ∧
    CLIConfiguration.delete
        { useEnvConfig := true,
          config := some { accounts := [{ accountId := 7 }] } }
        { file := some (.conf { accounts := [] }) } =
      ({ useEnvConfig := true,
         config := some { accounts := [{ accountId := 7 }] } },
       { file := some (.conf { accounts := [] }) }) :=
  c4_env_sourced_config_untouched
    { useEnvConfig := true,
      config := some { accounts := [{ accountId := 7 }] } }
    { file := some (.conf { accounts := [] }) }
    (some { accounts := [{ accountId := 9 }] }) rfl

/-- C6 counterexample: on the authenticated sending path (an account with
`authType === 'personalaccesskey'`), `trackUsage` returns the
`http.post(...)` promise itself, so its resolution is tied to the HTTP
response rather than resolving immediately — the call is not
fire-and-forget there. -/
theorem c6_counterexample :
    (trackUsage "content/filemapper/v1" "cli-interaction" (some 1)
        (fun _ => some { accountId := 1,
                         authType := some "personalaccesskey" })).promise =
      PromiseShape.tiedToRequest ∧
    (trackUsage "content/filemapper/v1" "cli-interaction" (some 1)
        (fun _ => some { accountId := 1,
                         authType := some "personalaccesskey" })).promise ≠
      PromiseShape.resolvesImmediately := by
  constructor <;> decide

/-- C6 amended: every `trackUsage` call issues exactly one POST; the
unauthenticated path is fire-and-forget (the returned promise resolves
without waiting on the POST), while the authenticated path — taken
exactly when the truthy account id resolves to an account whose auth type
is 'personalaccesskey' — returns the POST's own promise, so its
settlement follows the HTTP outcome. -/
theorem c6_track_usage_spec (fmp eventName : String)
    (accountId : Option Nat) (lookup : Nat → Option CLIAccount) :
    (trackUsage fmp eventName accountId lookup).postCount = 1 ∧
    (trackUsage fmp eventName accountId lookup).method = "post" ∧
    ((trackUsage fmp eventName accountId lookup).authenticated = false →
      (trackUsage fmp eventName accountId lookup).promise =
        PromiseShape.resolvesImmediately) ∧
    ((trackUsage fmp eventName accountId lookup).authenticated = true →
      (trackUsage fmp eventName accountId lookup).promise =
        PromiseShape.tiedToRequest) ∧
    ((trackUsage fmp eventName accountId lookup).authenticated = true ↔
      ∃ n, accountId = some n ∧ n ≠ 0 ∧
        ∃ a, lookup n = some a ∧ a.authType = some "personalaccesskey") := by
  cases accountId with
  | none => simp [trackUsage]
  | some n =>
    by_cases hn : n = 0
    · simp [trackUsage, hn]
    · cases ha : lookup n with
      | none => simp [trackUsage, hn, ha]
      | some a =>
        by_cases hp : a.authType = some "personalaccesskey"
        · simp [trackUsage, hn, ha, hp]
        · have : (a.authType == some "personalaccesskey") = false := by
            simpa using hp
          simp [trackUsage, hn, ha, this, hp]

/-- Witness for C6's amended statement on a concrete unauthenticated
call. -/
theorem c6_track_usage_spec_witness :
    (trackUsage "content/filemapper/v1" "vscode-extension-interaction"
        none (fun _ => none)).promise = PromiseShape.resolvesImmediately :=
  (c6_track_usage_spec "content/filemapper/v1"
      "vscode-extension-interaction" none (fun _ => none)).2.2.1 rfl

/-- C3 counterexample: when writing the buffer to the temp zip file
fails, the temp directory has been created (`mkdtemp` ran) but the
promise rejects with no removal of the temp directory — cleanup is not
performed on that failure path. -/
theorem c3_counterexample :
    FsAction.mkdtemp ∈
      (extractZipArchive true "project" true { writeFails := true }).1 ∧
    FsAction.removeTmpDir ∉
      (extractZipArchive true "project" true { writeFails := true }).1 ∧
    (extractZipArchive true "project" true { writeFails := true }).2 =
      Except.error () := by
  refine ⟨by decide, by decide, rfl⟩

/-- C3 amended: with a truthy zip buffer, when every filesystem call
succeeds the pipeline performs temp-directory creation, zip write,
extraction, the copy phase and temp-directory removal in that order and
resolves with true; when the write, the extraction or the copy fails the
promise rejects and the temp-directory removal never happens (there is no
try/finally around the awaited calls). -/
theorem c3_extract_zip_archive_spec (name : String) (ird : Bool)
    (o : FsOutcome) :
    ((o.mkdtempFails || o.writeFails || o.extractFails || o.copyFails)
        = false →
      extractZipArchive true name ird o =
        ([.mkdtemp, .writeZip, .extractZip] ++
          (copySourceToDest ird o).1 ++ [.removeTmpDir], .ok true)) ∧
    (o.mkdtempFails = false →
      (o.writeFails || o.extractFails ||
        (!(ird && o.readdirEmpty) && o.copyFails)) = true →
      (extractZipArchive true name ird o).2 = Except.error () ∧
      FsAction.mkdtemp ∈ (extractZipArchive true name ird o).1 ∧
      FsAction.removeTmpDir ∉ (extractZipArchive true name ird o).1) := by
  obtain ⟨m, wr, ex, re, cp⟩ := o
  cases m <;> cases wr <;> cases ex <;> cases re <;> cases cp <;>
    cases ird <;>
    simp [extractZipArchive, extractZip, copySourceToDest]

/-- Witness for C3's amended statement: the all-success run performs the
five phases in order. -/
theorem c3_extract_zip_archive_spec_witness :
    extractZipArchive true "project" true {} =
      ([.mkdtemp, .writeZip, .extractZip] ++
        (copySourceToDest true {}).1 ++ [.removeTmpDir], .ok true) :=
  (c3_extract_zip_archive_spec "project" true {}).1 (by decide)

/-- C10 counterexample: the digit string "0" parses to the integer 0,
which is falsy, so `getAccount` returns null without performing the
by-accountId lookup — on a config containing an account with accountId 0
the claimed lookup would have found it. -/
theorem c10_counterexample :
    isDigitString "0" = true ∧
    CLIConfiguration.getAccount
        (some { accounts := [{ accountId := 0, name := some "zero" }] })
        (some (.str "0")) = none ∧
    CLIConfiguration.findAccountById
        [({ accountId := 0, name := some "zero" } : CLIAccount)]
        (parseDigits "0") =
      some { accountId := 0, name := some "zero" } ∧
    CLIConfiguration.getAccount
        (some { accounts := [{ accountId := 0, name := some "zero" }] })
        (some (.str "0")) ≠
      CLIConfiguration.findAccountById
        [({ accountId := 0, name := some "zero" } : CLIAccount)]
        (parseDigits "0") := by
  refine ⟨by decide, by decide, by decide, by decide⟩

/-- C10 amended: a falsy `getAccount` argument (undefined, the number 0
or the empty string) falls back to the configured default account; a
digit-string argument parsing to a nonzero integer is looked up by
accountId and one parsing to zero returns null with no lookup; in neither
case does a name lookup happen, so an account retrieved for a digit
string always matched by accountId. -/
theorem c10_get_account_spec (cfg : CLIConfig) :
    (CLIConfiguration.getAccount (some cfg) none =
      CLIConfiguration.getAccount (some cfg)
        (CLIConfiguration.getDefaultAccount cfg)) ∧
    (CLIConfiguration.getAccount (some cfg) (some (.num 0)) =
      CLIConfiguration.getAccount (some cfg)
        (CLIConfiguration.getDefaultAccount cfg)) ∧
    (CLIConfiguration.getAccount (some cfg) (some (.str "")) =
      CLIConfiguration.getAccount (some cfg)
        (CLIConfiguration.getDefaultAccount cfg)) ∧
    (∀ s, isDigitString s = true →
      CLIConfiguration.getAccount (some cfg) (some (.str s)) =
        if parseDigits s ≠ 0 then
          CLIConfiguration.findAccountById cfg.accounts (parseDigits s)
        else none) ∧
    (∀ s a, isDigitString s = true →
      CLIConfiguration.getAccount (some cfg) (some (.str s)) = some a →
      a.accountId = parseDigits s) := by
  have key : ∀ arg, optSonTruthy arg = false →
      CLIConfiguration.getAccount (some cfg) arg =
        CLIConfiguration.getAccount (some cfg)
          (CLIConfiguration.getDefaultAccount cfg) := by
    intro arg h
    cases hgd : CLIConfiguration.getDefaultAccount cfg with
    | none => simp [CLIConfiguration.getAccount, h, hgd]
    | some v =>
      have hv : sonTruthy v = true := by
        unfold CLIConfiguration.getDefaultAccount at hgd
        cases hda : cfg.defaultAccount with
        | none => rw [hda] at hgd; cases hgd
        | some w =>
          rw [hda] at hgd
          simp only [] at hgd
          by_cases hw : sonTruthy w = true
          · rw [if_pos hw] at hgd
            injection hgd with h'
            rw [← h']; exact hw
          · rw [if_neg hw] at hgd; cases hgd
      have hv' : optSonTruthy (some v) = true := hv
      simp [CLIConfiguration.getAccount, h, hgd, hv']
  have hdig : ∀ s, isDigitString s = true →
      CLIConfiguration.getAccount (some cfg) (some (.str s)) =
        if parseDigits s ≠ 0 then
          CLIConfiguration.findAccountById cfg.accounts (parseDigits s)
        else none := by
    intro s hs
    have h1 : (s != "") = true := by
      unfold isDigitString at hs
      rw [Bool.and_eq_true] at hs
      exact hs.1
    have h2 : optSonTruthy (some (.str s)) = true := h1
    simp [CLIConfiguration.getAccount, CLIConfiguration.lookupByCheck,
      h2, hs]
  refine ⟨key none rfl, key (some (.num 0)) rfl, key (some (.str "")) rfl,
    hdig, ?_⟩
  intro s a hs hsome
  rw [hdig s hs] at hsome
  by_cases hz : parseDigits s = 0
  · simp [hz] at hsome
  · rw [if_pos hz] at hsome
    unfold CLIConfiguration.findAccountById at hsome
    have hp := List.find?_some hsome
    exact (beq_iff_eq.mp hp).symm

/-- Witness for C10's amended statement on a concrete digit string. -/
theorem c10_get_account_spec_witness :
    CLIConfiguration.getAccount
        (some { accounts := [{ accountId := 42, name := some "acct" }],
                defaultAccount := some (.str "acct") })
        (some (.str "42")) =
      if parseDigits "42" ≠ 0 then
        CLIConfiguration.findAccountById
          ({ accounts := [{ accountId := 42, name := some "acct" }],
             defaultAccount := some (.str "acct") } : CLIConfig).accounts
          (parseDigits "42")
      else none :=
  (c10_get_account_spec
      { accounts := [{ accountId := 42, name := some "acct" }],
        defaultAccount := some (.str "acct") }).2.2.2.1 "42" (by decide)

/-- C2 counterexample: an update supplying a defined `apiKey` does not
overwrite the existing value when the merged account's auth type is not
the API-key method (here it is undefined): the `apiKey` write is guarded
by `nextAccountConfig.authType === API_KEY_AUTH_METHOD.value`.  The
stand-in helper instantiations are irrelevant: with an undefined merged
auth type the guard fails for every possible `API_KEY_AUTH_METHOD.value`
string. -/
theorem c2_counterexample :
    ({ accountId := 1, apiKey := some "new" } : UpdatedAccountFields).apiKey
        = some "new" ∧
    (CLIConfiguration.mergeAccount getValidEnvStub defaultModesStub
        apiKeyAuthValue (some { accountId := 1, apiKey := some "old" })
        { accountId := 1, apiKey := some "new" }).apiKey = some "old" ∧
    (CLIConfiguration.mergeAccount getValidEnvStub defaultModesStub
        apiKeyAuthValue (some { accountId := 1, apiKey := some "old" })
        { accountId := 1, apiKey := some "new" }).apiKey ≠ some "new" :=
  ⟨rfl, by decide, by decide⟩

/-- C2 amended: merging an update into an existing account keeps every
field whose update value is undefined and overwrites with the defined
values, except that (i) `env` is always recomputed as `getValidEnv` of
the update's env or else the prior env, (ii) `apiKey` is only applied
when the merged auth type equals the API-key method value, (iii)
`defaultMode` is applied through a lowercasing `DEFAULT_MODES` table
lookup and dropped when the lookup misses, and (iv) `auth` is rebuilt
from the update's oauth credential fields whenever one of them is truthy
and kept otherwise. -/
theorem c2_merge_defined_updates (gve : Option String → String)
    (dm : String → Option String) (akv : String) (cur : CLIAccount)
    (u : UpdatedAccountFields) :
    (CLIConfiguration.mergeAccount gve dm akv (some cur) u).accountId =
      u.accountId ∧
    (u.name = none →
      (CLIConfiguration.mergeAccount gve dm akv (some cur) u).name =
        cur.name) ∧
    (∀ v, u.name = some v →
      (CLIConfiguration.mergeAccount gve dm akv (some cur) u).name =
        some v) ∧
    (u.authType = none →
      (CLIConfiguration.mergeAccount gve dm akv (some cur) u).authType =
        cur.authType) ∧
    (∀ v, u.authType = some v →
      (CLIConfiguration.mergeAccount gve dm akv (some cur) u).authType =
        some v) ∧
    (u.personalAccessKey = none →
      (CLIConfiguration.mergeAccount gve dm akv (some cur)
          u).personalAccessKey = cur.personalAccessKey) ∧
    (∀ v, u.personalAccessKey = some v →
      (CLIConfiguration.mergeAccount gve dm akv (some cur)
          u).personalAccessKey = some v) ∧
    (u.sandboxAccountType = none →
      (CLIConfiguration.mergeAccount gve dm akv (some cur)
          u).sandboxAccountType = cur.sandboxAccountType) ∧
    (∀ v, u.sandboxAccountType = some v →
      (CLIConfiguration.mergeAccount gve dm akv (some cur)
          u).sandboxAccountType = some v) ∧
    (u.parentAccountId = none →
      (CLIConfiguration.mergeAccount gve dm akv (some cur)
          u).parentAccountId = cur.parentAccountId) ∧
    (∀ v, u.parentAccountId = some v →
      (CLIConfiguration.mergeAccount gve dm akv (some cur)
          u).parentAccountId = some v) ∧
    (CLIConfiguration.mergeAccount gve dm akv (some cur) u).env =
      some (gve (jsOrStr u.env cur.env)) ∧
    ((CLIConfiguration.mergeAccount gve dm akv (some cur) u).authType ≠
        some akv →
      (CLIConfiguration.mergeAccount gve dm akv (some cur) u).apiKey =
        cur.apiKey) ∧
    ((CLIConfiguration.mergeAccount gve dm akv (some cur) u).authType =
        some akv → u.apiKey = none →
      (CLIConfiguration.mergeAccount gve dm akv (some cur) u).apiKey =
        cur.apiKey) ∧
    ((CLIConfiguration.mergeAccount gve dm akv (some cur) u).authType =
        some akv → ∀ v, u.apiKey = some v →
      (CLIConfiguration.mergeAccount gve dm akv (some cur) u).apiKey =
        some v) ∧
    (u.defaultMode = none →
      (CLIConfiguration.mergeAccount gve dm akv (some cur) u).defaultMode =
        cur.defaultMode) ∧
    (∀ s, u.defaultMode = some s →
      (CLIConfiguration.mergeAccount gve dm akv (some cur) u).defaultMode =
        match dm (toLowerStr s) with
        | some v => some v
        | none => cur.defaultMode) ∧
    (CLIConfiguration.authFieldsTruthy u = false →
      (CLIConfiguration.mergeAccount gve dm akv (some cur) u).auth =
        cur.auth) ∧
    (CLIConfiguration.authFieldsTruthy u = true →
      (CLIConfiguration.mergeAccount gve dm akv (some cur) u).auth =
        some { clientId := u.clientId, clientSecret := u.clientSecret,
               scopes := u.scopes, tokenInfo := u.tokenInfo }) := by
  refine ⟨rfl, ?_, ?_, ?_, ?_, ?_, ?_, ?_, ?_, ?_, ?_, rfl, ?_, ?_, ?_,
    ?_, ?_, ?_, ?_⟩
  · intro h
    simp [CLIConfiguration.mergeAccount, CLIConfiguration.safelyApplyUpdates, h]
  · intro v h
    simp [CLIConfiguration.mergeAccount, CLIConfiguration.safelyApplyUpdates, h]
  · intro h
    simp [CLIConfiguration.mergeAccount, CLIConfiguration.safelyApplyUpdates, h]
  · intro v h
    simp [CLIConfiguration.mergeAccount, CLIConfiguration.safelyApplyUpdates, h]
  · intro h
    simp [CLIConfiguration.mergeAccount, CLIConfiguration.safelyApplyUpdates, h]
  · intro v h
    simp [CLIConfiguration.mergeAccount, CLIConfiguration.safelyApplyUpdates, h]
  · intro h
    simp [CLIConfiguration.mergeAccount, CLIConfiguration.safelyApplyUpdates, h]
  · intro v h
    simp [CLIConfiguration.mergeAccount, CLIConfiguration.safelyApplyUpdates, h]
  · intro h
    simp [CLIConfiguration.mergeAccount, CLIConfiguration.safelyApplyUpdates, h]
  · intro v h
    simp [CLIConfiguration.mergeAccount, CLIConfiguration.safelyApplyUpdates, h]
  · intro h
    have hb : (CLIConfiguration.safelyApplyUpdates u.authType cur.authType ==
        some akv) = false := by simpa using h
    simp [CLIConfiguration.mergeAccount, hb]
  · intro h h2
    have hb : (CLIConfiguration.safelyApplyUpdates u.authType cur.authType ==
        some akv) = true := by simpa using h
    simp [CLIConfiguration.mergeAccount, CLIConfiguration.safelyApplyUpdates,
      hb, h2]
  · intro h v h2
    cases ht : u.authType with
    | some t =>
      have h' : t = akv := by
        have hh := h
        simp [CLIConfiguration.mergeAccount,
          CLIConfiguration.safelyApplyUpdates, ht] at hh
        exact hh
      simp [CLIConfiguration.mergeAccount,
        CLIConfiguration.safelyApplyUpdates, ht, h', h2]
    | none =>
      have h' : cur.authType = some akv := by
        have hh := h
        simp [CLIConfiguration.mergeAccount,
          CLIConfiguration.safelyApplyUpdates, ht] at hh
        exact hh
      simp [CLIConfiguration.mergeAccount,
        CLIConfiguration.safelyApplyUpdates, ht, h', h2]
  · intro h
    simp [CLIConfiguration.mergeAccount, h]
  · intro s h
    cases hdm : dm (toLowerStr s) <;>
      simp [CLIConfiguration.mergeAccount,
        CLIConfiguration.safelyApplyUpdates, h, hdm]
  · intro h
    simp [CLIConfiguration.mergeAccount, CLIConfiguration.updatedAuth,
      CLIConfiguration.safelyApplyUpdates, h]
  · intro h
    simp [CLIConfiguration.mergeAccount, CLIConfiguration.updatedAuth,
      CLIConfiguration.safelyApplyUpdates, h]

/-- Witness for C2's amended statement: a defined name overwrites, an
undefined personal access key is kept. -/
theorem c2_merge_defined_updates_witness :
    (CLIConfiguration.mergeAccount getValidEnvStub defaultModesStub
        apiKeyAuthValue
        (some { accountId := 1, name := some "old-name",
                personalAccessKey := some "pak" })
        { accountId := 1, name := some "new-name" }).name =
      some "new-name" ∧
    (CLIConfiguration.mergeAccount getValidEnvStub defaultModesStub
        apiKeyAuthValue
        (some { accountId := 1, name := some "old-name",
                personalAccessKey := some "pak" })
        { accountId := 1, name := some "new-name" }).personalAccessKey =
      some "pak" :=
  ⟨(c2_merge_defined_updates getValidEnvStub defaultModesStub
      apiKeyAuthValue
      { accountId := 1, name := some "old-name",
        personalAccessKey := some "pak" }
      { accountId := 1, name := some "new-name" }).2.2.1 "new-name" rfl,
   (c2_merge_defined_updates getValidEnvStub defaultModesStub
      apiKeyAuthValue
      { accountId := 1, name := some "old-name",
        personalAccessKey := some "pak" }
      { accountId := 1, name := some "new-name" }).2.2.2.2.2.1 rfl⟩

/-- C1 (code bug): updating the single existing account with id 123 both
replaces the entry at its index and pushes a second copy of the merged
record (CLIConfiguration.ts lines 355-369 run the index assignment and
the push in the same `if (currentAccountConfig)` branch), so the
accounts list goes from pairwise-distinct ids to a duplicated id. -/
theorem c1_update_account_duplicates :
    (([{ accountId := 123 }] : List CLIAccount).map
        CLIAccount.accountId).Nodup ∧
    CLIConfiguration.updateAccount getValidEnvStub defaultModesStub
        apiKeyAuthValue (some { accounts := [{ accountId := 123 }] })
        { accountId := 123, name := some "renamed" } =
      Except.ok
        (some { accounts :=
            [{ accountId := 123, name := some "renamed",
               env := some "prod" },
             { accountId := 123, name := some "renamed",
               env := some "prod" }] },
         some { accountId := 123, name := some "renamed",
                env := some "prod" }) ∧
    ¬ (([{ accountId := 123, name := some "renamed", env := some "prod" },
         { accountId := 123, name := some "renamed", env := some "prod" }] :
          List CLIAccount).map CLIAccount.accountId).Nodup := by
  refine ⟨by decide, rfl, by decide⟩

/-- Unfolding of `ValidAccountsSpecJs` over a cons cell. -/
theorem validAccountsSpecJs_cons (e : Option CLIAccount)
    (rest : List (Option CLIAccount)) :
    ValidAccountsSpecJs (e :: rest) ↔
      AccountEntryOkJs e ∧ (∀ y ∈ rest, EntriesCompatible e y) ∧
        ValidAccountsSpecJs rest := by
  simp only [ValidAccountsSpecJs, List.forall_mem_cons, List.pairwise_cons]
  tauto

/-- Unfolding of `FreshFor` over a cons cell. -/
theorem freshFor_cons (ids : List Nat) (names : List String)
    (e : Option CLIAccount) (rest : List (Option CLIAccount)) :
    FreshFor ids names (e :: rest) ↔
      (∀ a, e = some a → a.accountId ∉ ids ∧
        ∀ n, a.name = some n → n ≠ "" → n ∉ names) ∧
      FreshFor ids names rest := by
  simp only [FreshFor, List.forall_mem_cons]

/-- Extending the seen-ids accumulator by the id of an account with no
truthy name is the same as demanding compatibility with that account. -/
theorem freshFor_extend (a : CLIAccount) (ids : List Nat)
    (names : List String) (rest : List (Option CLIAccount))
    (hvac : ∀ n, a.name = some n → n ≠ "" → False) :
    FreshFor (a.accountId :: ids) names rest ↔
      FreshFor ids names rest ∧ ∀ y ∈ rest, EntriesCompatible (some a) y := by
  unfold FreshFor EntriesCompatible
  constructor
  · intro h
    constructor
    · intro e he b heb
      obtain ⟨h1, h2⟩ := h e he b heb
      exact ⟨fun hm => h1 (List.mem_cons_of_mem _ hm), h2⟩
    · intro y hy p q hp hq
      obtain ⟨h1, _⟩ := h y hy q hq
      injection hp with hp
      subst hp
      constructor
      · intro heq
        exact h1 (by rw [← heq]; exact List.mem_cons_self _ _)
      · intro n m hn hm hne _
        exact (hvac n hn hne).elim
  · rintro ⟨hf, hc⟩ e he b heb
    obtain ⟨h1, h2⟩ := hf e he b heb
    refine ⟨?_, h2⟩
    intro hmem
    rcases List.mem_cons.mp hmem with heq | hmem'
    · exact (hc e he a b rfl heb).1 heq.symm
    · exact h1 hmem'

/-- Extending the seen-ids and seen-names accumulators by an account with
a truthy name is the same as demanding compatibility with that account. -/
theorem freshFor_extend_name (a : CLIAccount) (n : String)
    (ids : List Nat) (names : List String)
    (rest : List (Option CLIAccount)) (hname : a.name = some n)
    (hn : n ≠ "") :
    FreshFor (a.accountId :: ids) (n :: names) rest ↔
      FreshFor ids names rest ∧ ∀ y ∈ rest, EntriesCompatible (some a) y := by
  unfold FreshFor EntriesCompatible
  constructor
  · intro h
    constructor
    · intro e he b heb
      obtain ⟨h1, h2⟩ := h e he b heb
      refine ⟨fun hm => h1 (List.mem_cons_of_mem _ hm), ?_⟩
      intro m hm hme hmem
      exact (h2 m hm hme) (List.mem_cons_of_mem _ hmem)
    · intro y hy p q hp hq
      obtain ⟨h1, h2⟩ := h y hy q hq
      injection hp with hp
      subst hp
      refine ⟨?_, ?_⟩
      · intro heq
        exact h1 (by rw [← heq]; exact List.mem_cons_self _ _)
      · intro n' m hn' hm _ hme'
        rw [hname] at hn'
        injection hn' with hn''
        subst hn''
        intro heq
        exact (h2 m hm hme') (by rw [← heq]; exact List.mem_cons_self _ _)
  · rintro ⟨hf, hc⟩ e he b heb
    obtain ⟨h1, h2⟩ := hf e he b heb
    have hcb := hc e he a b rfl heb
    refine ⟨?_, ?_⟩
    · intro hmem
      rcases List.mem_cons.mp hmem with heq | hmem'
      · exact hcb.1 heq.symm
      · exact h1 hmem'
    · intro m hm hme hmem
      rcases List.mem_cons.mp hmem with heq | hmem'
      · exact hcb.2 n m hname hm hn hme heq.symm
      · exact h2 m hm hme hmem'

/-- The accumulator invariant of `validateGo`: it accepts exactly the
account lists valid for the implementation (prototype-chain name
restriction included) all of whose entries are also fresh with respect to
the already-seen ids and truthy names. -/
theorem validate_go_iff (l : List (Option CLIAccount)) :
    ∀ ids names, CLIConfiguration.validateGo ids names l = true ↔
      (ValidAccountsSpecJs l ∧ FreshFor ids names l) := by
  induction l with
  | nil =>
    intro ids names
    simp [CLIConfiguration.validateGo, ValidAccountsSpecJs, FreshFor]
  | cons e rest ih =>
    intro ids names
    cases e with
    | none =>
      simp only [CLIConfiguration.validateGo]
      constructor
      · intro h; cases h
      · rintro ⟨⟨hOk, _⟩, _⟩
        obtain ⟨b, hb, _⟩ := hOk none (List.mem_cons_self _ _)
        cases hb
    | some a =>
      simp only [CLIConfiguration.validateGo]
      by_cases h0 : a.accountId = 0
      · rw [if_pos h0]
        constructor
        · intro h; cases h
        · rintro ⟨⟨hOk, _⟩, _⟩
          obtain ⟨b, hb, hid0, _⟩ := hOk (some a) (List.mem_cons_self _ _)
          injection hb with hb
          subst hb
          exact (hid0 h0).elim
      · rw [if_neg h0]
        by_cases hid : a.accountId ∈ ids
        · rw [if_pos hid]
          constructor
          · intro h; cases h
          · rintro ⟨_, hF⟩
            obtain ⟨h1, _⟩ := hF (some a) (List.mem_cons_self _ _) a rfl
            exact (h1 hid).elim
        · rw [if_neg hid]
          cases hname : a.name with
          | none =>
            rw [ih, freshFor_extend a ids names rest
                (by intro m h1 _; rw [hname] at h1; cases h1),
              validAccountsSpecJs_cons, freshFor_cons]
            constructor
            · rintro ⟨hV, hF, hC⟩
              refine ⟨⟨⟨a, rfl, h0, ?_⟩, hC, hV⟩, ?_, hF⟩
              · intro m h1; rw [hname] at h1; cases h1
              · intro b hb
                injection hb with hb
                subst hb
                refine ⟨hid, ?_⟩
                intro m h1; rw [hname] at h1; cases h1
            · rintro ⟨⟨_, hC, hV⟩, _, hF⟩
              exact ⟨hV, hF, hC⟩
          | some n =>
            show (if n ≠ "" then
                if n ∈ names ∨ n ∈ jsObjectProtoKeys then false
                else if containsWhitespace n = true then false
                else CLIConfiguration.validateGo (a.accountId :: ids)
                  (n :: names) rest
              else CLIConfiguration.validateGo (a.accountId :: ids) names
                rest) = true ↔ _
            by_cases hn : n = ""
            · rw [if_neg (by simp [hn])]
              rw [ih, freshFor_extend a ids names rest
                  (by intro m h1 h2; rw [hname] at h1; injection h1 with h1
                      exact h2 (by rw [← h1]; exact hn)),
                validAccountsSpecJs_cons, freshFor_cons]
              constructor
              · rintro ⟨hV, hF, hC⟩
                refine ⟨⟨⟨a, rfl, h0, ?_⟩, hC, hV⟩, ?_, hF⟩
                · intro m h1 h2
                  rw [hname] at h1
                  injection h1 with h1
                  exact absurd (by rw [← h1]; exact hn) h2
                · intro b hb
                  injection hb with hb
                  subst hb
                  refine ⟨hid, ?_⟩
                  intro m h1 h2
                  rw [hname] at h1
                  injection h1 with h1
                  exact absurd (by rw [← h1]; exact hn) h2
              · rintro ⟨⟨_, hC, hV⟩, _, hF⟩
                exact ⟨hV, hF, hC⟩
            · rw [if_pos hn]
              by_cases hmem : n ∈ names ∨ n ∈ jsObjectProtoKeys
              · rw [if_pos hmem]
                constructor
                · intro h; cases h
                · rintro ⟨⟨hOk, _⟩, hF⟩
                  rcases hmem with hm | hp
                  · obtain ⟨_, h2⟩ :=
                      hF (some a) (List.mem_cons_self _ _) a rfl
                    exact (h2 n hname hn hm).elim
                  · obtain ⟨b, hb, _, hcl⟩ :=
                      hOk (some a) (List.mem_cons_self _ _)
                    injection hb with hb
                    subst hb
                    exact ((hcl n hname hn).2 hp).elim
              · rw [if_neg hmem]
                have hm' : n ∉ names := fun hm => hmem (Or.inl hm)
                have hp' : n ∉ jsObjectProtoKeys :=
                  fun hp => hmem (Or.inr hp)
                by_cases hws : containsWhitespace n = true
                · rw [if_pos hws]
                  constructor
                  · intro h; cases h
                  · rintro ⟨⟨hOk, _⟩, _⟩
                    obtain ⟨b, hb, _, hcl⟩ :=
                      hOk (some a) (List.mem_cons_self _ _)
                    injection hb with hb
                    subst hb
                    have hc := (hcl n hname hn).1
                    rw [hc] at hws
                    cases hws
                · rw [if_neg hws]
                  rw [ih, freshFor_extend_name a n ids names rest hname hn,
                    validAccountsSpecJs_cons, freshFor_cons]
                  constructor
                  · rintro ⟨hV, hF, hC⟩
                    refine ⟨⟨⟨a, rfl, h0, ?_⟩, hC, hV⟩, ?_, hF⟩
                    · intro m h1 _
                      rw [hname] at h1
                      injection h1 with h1
                      subst h1
                      exact ⟨by simpa using hws, hp'⟩
                    · intro b hb
                      injection hb with hb
                      subst hb
                      refine ⟨hid, ?_⟩
                      intro m h1 _
                      rw [hname] at h1
                      injection h1 with h1
                      subst h1
                      exact hm'
                  · rintro ⟨⟨_, hC, hV⟩, _, hF⟩
                    exact ⟨hV, hF, hC⟩

/-- C5 counterexample: a single account named "toString" satisfies the
original claim's right-hand side (truthy id, no earlier duplicate id or
name, no whitespace) yet `validate()` returns false, because the
`accountNamesMap[name]` read on the plain `{}` literal finds the
inherited, truthy `Object.prototype.toString` on first occurrence. -/
theorem c5_counterexample :
    ¬ (CLIConfiguration.validate
        (some (CLIConfiguration.RawConfigView.mk
          (some [some { accountId := 1, name := some "toString" }]))) =
          true ↔
      ∃ cfg, some (CLIConfiguration.RawConfigView.mk
          (some [some { accountId := 1, name := some "toString" }])) =
          some cfg ∧
        ∃ l, cfg.accounts = some l ∧ ValidAccountsSpec l) := by
  intro h
  have hspec :
      ValidAccountsSpec [some { accountId := 1, name := some "toString" }] := by
    constructor
    · intro e he
      simp only [List.mem_singleton] at he
      subst he
      refine ⟨_, rfl, by decide, ?_⟩
      intro n hn _
      injection hn with hn
      subst hn
      decide
    · simp
  have htrue := h.mpr ⟨_, rfl, _, rfl, hspec⟩
  exact absurd htrue (by decide)

/-- C5 amended: `validate()` returns true if and only if the config is
non-null, its accounts field is an array, and every account entry is
non-empty, has a truthy accountId distinct from every other entry's
accountId, and, when it has a truthy name, that name is not an inherited
`Object.prototype` property name, is distinct from every other entry's
truthy name and contains no whitespace character. -/
theorem c5_validate_iff (c : Option CLIConfiguration.RawConfigView) :
    CLIConfiguration.validate c = true ↔
      ∃ cfg, c = some cfg ∧
        ∃ l, cfg.accounts = some l ∧ ValidAccountsSpecJs l := by
  cases c with
  | none => simp [CLIConfiguration.validate]
  | some cfg =>
    cases hacc : cfg.accounts with
    | none => simp [CLIConfiguration.validate, hacc]
    | some l =>
      simp only [CLIConfiguration.validate, hacc]
      rw [validate_go_iff]
      have hfresh : FreshFor [] [] l := by
        intro e _ a _
        simp
      simp [hacc, hfresh]

/-- Witness for C5's amended statement on a concrete two-account
configuration accepted by `validate`. -/
theorem c5_validate_iff_witness :
    (CLIConfiguration.validate
        (some (CLIConfiguration.RawConfigView.mk
          (some [some { accountId := 1, name := some "alpha" },
                 some { accountId := 2 }]))) = true ↔
      ∃ cfg, some (CLIConfiguration.RawConfigView.mk
          (some [some { accountId := 1, name := some "alpha" },
                 some { accountId := 2 }])) = some cfg ∧
        ∃ l, cfg.accounts = some l ∧ ValidAccountsSpecJs l) ∧
    CLIConfiguration.validate
        (some (CLIConfiguration.RawConfigView.mk
          (some [some { accountId := 1, name := some "alpha" },
                 some { accountId := 2 }]))) = true :=
  ⟨c5_validate_iff
      (some (CLIConfiguration.RawConfigView.mk
        (some [some { accountId := 1, name := some "alpha" },
               some { accountId := 2 }]))),
   by decide⟩

end HubSpotLocalDevLib
